import Mathlib

/-!
Verification development for the gemini-video-playground repository.

The Python sources under `src/utils` and `src/playground` are shallowly
embedded below: pure helpers become Lean functions, database-mutating
procedures become explicit state-passing functions over a `DB` record, and
calls into external services (the generative-model SDK, the hosted storage
backend, the HTTP client) are abstracted as oracle parameters describing
the outcome of each external call.  Python `int`/`float` values arriving
from JSON are modelled as rationals; Python's `bool` counts as numeric,
mirroring `isinstance(v, (int, float))`.
-/

namespace GVP

/-- Model of a decoded JSON value as produced by Python's `json.loads`.
Numbers are modelled as rationals (covering the ints and decimal floats the
pipeline sees); objects keep insertion order, as Python dicts do. -/
inductive Json : Type where
  | null : Json
  | bool (b : Bool) : Json
  | num (q : ℚ) : Json
  | str (s : String) : Json
  | arr (xs : List Json) : Json
  | obj (kvs : List (String × Json)) : Json
deriving Repr

/-- Opening brace character. -/
def lbrace : Char := Char.ofNat 123

/-- Closing brace character. -/
def rbrace : Char := Char.ofNat 125

/-- Python dict assignment `d[k] = v`: overwrite in place when the key is
present, otherwise append at the end (insertion order). -/
def setKey (kvs : List (String × Json)) (k : String) (v : Json) :
    List (String × Json) :=
  if kvs.any (fun kv => kv.1 = k) then
    kvs.map (fun kv => if kv.1 = k then (k, v) else kv)
  else
    kvs ++ [(k, v)]

/-- Python dict lookup `d[k]` / `k in d`: first (unique) binding. -/
def getKey (kvs : List (String × Json)) (k : String) : Option Json :=
  (kvs.find? (fun kv => kv.1 = k)).map Prod.snd

/-! ### A small JSON reader, modelling the stdlib `json.loads`

Modelled from Python's standard library (external to this repository): a
recursive-descent reader for the JSON subset the pipeline exchanges
(objects, arrays, strings with the common escapes, decimal numbers without
exponents, `true`/`false`/`null`).  `json.loads` raises `JSONDecodeError`
on malformed input; here that is `none`.  Duplicate object keys keep the
last value, as Python dicts do. -/

/-- Skip JSON whitespace. -/
def skipWs : List Char → List Char
  | c :: cs =>
    if c = ' ' ∨ c = '\n' ∨ c = '\t' ∨ c = '\r' then skipWs cs else c :: cs
  | [] => []

/-- Read the body of a JSON string after the opening quote, handling the
common escapes. Returns the decoded characters and the remaining input. -/
def readStringBody : List Char → Option (List Char × List Char)
  | [] => none
  | c :: cs =>
    if c = '"' then some ([], cs)
    else if c = '\\' then
      match cs with
      | [] => none
      | e :: cs' =>
        let dec : Option Char :=
          if e = '"' then some '"'
          else if e = '\\' then some '\\'
          else if e = '/' then some '/'
          else if e = 'n' then some '\n'
          else if e = 't' then some '\t'
          else if e = 'r' then some '\r'
          else none
        match dec with
        | none => none
        | some d =>
          match readStringBody cs' with
          | none => none
          | some (body, rest) => some (d :: body, rest)
    else
      match readStringBody cs with
      | none => none
      | some (body, rest) => some (c :: body, rest)

/-- Decimal digits to a natural number. -/
def digitsToNat (ds : List Char) : Nat :=
  ds.foldl (fun acc d => acc * 10 + (d.toNat - '0'.toNat)) 0

/-- Read a JSON number (optional minus, digits, optional fraction). -/
def readNumber (l : List Char) : Option (ℚ × List Char) :=
  let neg : Bool := match l with | '-' :: _ => true | _ => false
  let l1 : List Char := match l with | '-' :: r => r | _ => l
  let ds := l1.takeWhile Char.isDigit
  let rest := l1.dropWhile Char.isDigit
  if ds.isEmpty then none
  else
    let ip : ℚ := (digitsToNat ds : ℚ)
    let step : ℚ × List Char :=
      match rest with
      | '.' :: r2 =>
        let fs := r2.takeWhile Char.isDigit
        if fs.isEmpty then (ip, rest)
        else (ip + (digitsToNat fs : ℚ) / ((10 : ℚ) ^ fs.length),
              r2.dropWhile Char.isDigit)
      | _ => (ip, rest)
    some (if neg then -step.1 else step.1, step.2)

/-- Check that the input starts with the given literal characters. -/
def expectLit : List Char → List Char → Option (List Char)
  | [], rest => some rest
  | l :: ls, c :: cs => if c = l then expectLit ls cs else none
  | _ :: _, [] => none

mutual

/-- Read one JSON value (fuel-bounded recursive descent). -/
def readVal : Nat → List Char → Option (Json × List Char)
  | 0, _ => none
  | fuel + 1, l =>
    match skipWs l with
    | [] => none
    | c :: cs =>
      if c = '"' then
        match readStringBody cs with
        | none => none
        | some (body, rest) => some (.str (String.mk body), rest)
      else if c = lbrace then readObj fuel (skipWs cs) []
      else if c = '[' then readArr fuel (skipWs cs) []
      else if c = 't' then
        (expectLit ['r', 'u', 'e'] cs).map (fun r => (.bool true, r))
      else if c = 'f' then
        (expectLit ['a', 'l', 's', 'e'] cs).map (fun r => (.bool false, r))
      else if c = 'n' then
        (expectLit ['u', 'l', 'l'] cs).map (fun r => (.null, r))
      else
        (readNumber (c :: cs)).map (fun p => (.num p.1, p.2))

/-- Read the members of an object after the opening brace (whitespace
already skipped); `acc` holds the members read so far. -/
def readObj : Nat → List Char → List (String × Json) →
    Option (Json × List Char)
  | 0, _, _ => none
  | fuel + 1, l, acc =>
    match l with
    | [] => none
    | c :: cs =>
      if c = rbrace ∧ acc.isEmpty then
        some (.obj [], cs)
      else if c = '"' then
        match readStringBody cs with
        | none => none
        | some (kbody, r1) =>
          match skipWs r1 with
          | ':' :: r2 =>
            match readVal fuel r2 with
            | none => none
            | some (v, r3) =>
              let acc' := acc ++ [(String.mk kbody, v)]
              match skipWs r3 with
              | ',' :: r4 => readObj fuel (skipWs r4) acc'
              | d :: r4 =>
                if d = rbrace then
                  some (.obj (acc'.foldl (fun m kv => setKey m kv.1 kv.2) []),
                        r4)
                else none
              | [] => none
          | _ => none
      else none

/-- Read the elements of an array after the opening bracket (whitespace
already skipped); `acc` holds the elements read so far. -/
def readArr : Nat → List Char → List Json → Option (Json × List Char)
  | 0, _, _ => none
  | fuel + 1, l, acc =>
    match l with
    | [] => none
    | c :: cs =>
      if c = ']' ∧ acc.isEmpty then
        some (.arr [], cs)
      else
        match readVal fuel l with
        | none => none
        | some (v, r1) =>
          match skipWs r1 with
          | ',' :: r2 => readArr fuel (skipWs r2) (acc ++ [v])
          | ']' :: r2 => some (.arr (acc ++ [v]), r2)
          | _ => none

end

/-- Model of Python's `json.loads`: decode the whole string, rejecting
trailing garbage, or fail (the model of raising `JSONDecodeError`). -/
def json_loads (s : String) : Option Json :=
  match readVal (s.length + 8) s.data with
  | some (v, rest) => if (skipWs rest).isEmpty then some v else none
  | none => none

/-! ### `src/utils/results_manager.py` -/

/-- Index of the first occurrence of `pat` in `l`, if any. -/
def findSub (pat : List Char) : List Char → Option Nat
  | [] => if pat.isEmpty then some 0 else none
  | c :: cs =>
    if pat.isPrefixOf (c :: cs) then some 0
    else (findSub pat cs).map (· + 1)

/-- The characters of the opening fence marker matched by the regex in
`clean_json_string`. -/
def openMarker : List Char := "```json\n".data

/-- The characters of the closing fence marker matched by the regex in
`clean_json_string`. -/
def closeMarker : List Char := "\n```".data

/-- Embedding of `clean_json_string`: extract the content of the first
fenced block matched by `re.search` with the lazy pattern (earliest opening
marker, then the earliest closing marker after it); otherwise return the
raw string unchanged. -/
def clean_json_string (raw : String) : String :=
  match findSub openMarker raw.data with
  | none => raw
  | some i =>
    let afterOpen := raw.data.drop (i + openMarker.length)
    match findSub closeMarker afterOpen with
    | none => raw
    | some j => String.mk (afterOpen.take j)

/-- Boolean test that `s` ends with `suf`. -/
def strEndsWith (s suf : String) : Bool :=
  s.data.reverse.take suf.data.length == suf.data.reverse

/-- Lower-case one character (ASCII range, which covers the key names the
pipeline sees). -/
def lowerChar (c : Char) : Char :=
  if 'A' ≤ c ∧ c ≤ 'Z' then Char.ofNat (c.toNat + 32) else c

/-- Model of Python's `str.lower` on the ASCII key names in play. -/
def pyLower (s : String) : String :=
  String.mk (s.data.map lowerChar)

/-- The key filter of `parse_analysis_result`:
`k.lower().endswith(('level', 'rating', 'score'))`. -/
def keyIsScoreKey (k : String) : Bool :=
  strEndsWith (pyLower k) "level" || strEndsWith (pyLower k) "rating" ||
    strEndsWith (pyLower k) "score"

/-- The numeric test `isinstance(v, (int, float))` together with the value
used in arithmetic; Python `bool` is a subtype of `int`, so booleans count
as numeric with values 1 and 0. -/
def pyNumeric : Json → Option ℚ
  | .num q => some q
  | .bool b => some (if b then 1 else 0)
  | _ => none

/-- The `score_components` list built by `parse_analysis_result`: walk the
top-level items; for each value that is itself a dict, collect the inner
values whose key passes `keyIsScoreKey` and which are numeric. -/
def scoreComponents (kvs : List (String × Json)) : List ℚ :=
  kvs.flatMap fun kv =>
    match kv.2 with
    | .obj inner =>
      inner.filterMap fun kv2 =>
        if keyIsScoreKey kv2.1 then pyNumeric kv2.2 else none
    | _ => []

/-- Python's built-in `round` on an exact value: round half to even. -/
def pyRound (q : ℚ) : ℤ :=
  let f := ⌊q⌋
  if q - f < 1 / 2 then f
  else if 1 / 2 < q - f then f + 1
  else if f % 2 = 0 then f else f + 1

/-- The `overall_score` computed by `parse_analysis_result`:
`round((sum(valid_scores) / len(valid_scores)) * 100)` over the strictly
positive score components, and 0 when none qualify. -/
def overall_score (kvs : List (String × Json)) : ℤ :=
  let valid := (scoreComponents kvs).filter (fun s => 0 < s)
  if valid.isEmpty then 0
  else pyRound ((valid.sum / (valid.length : ℚ)) * 100)

/-- Outcome of running a Python function: either a returned dict, or an
uncaught exception escaping to the caller (named by its class). -/
inductive PyResult : Type where
  | ok (v : List (String × Json)) : PyResult
  | raised (e : String) : PyResult
deriving Repr

/-- Embedding of `parse_analysis_result`.  The argument is the stored task
`result` (a JSON object or null).  Falsy or `analysis`-less input returns
an empty dict.  Otherwise the analysis text is cleaned and decoded:
`JSONDecodeError` is caught and turned into the error marker; decoding to
a non-dict reaches `parsed.items()` and raises `AttributeError`; a
non-string analysis value reaches `re.search` and raises `TypeError` —
neither is caught.  On a decoded dict the derived `overall_score` entry is
written into the dict and the dict returned. -/
def parse_analysis_result (result : Option (List (String × Json))) :
    PyResult :=
  match result with
  | none => .ok []
  | some kvs =>
    if kvs.isEmpty then .ok []
    else
      match getKey kvs "analysis" with
      | none => .ok []
      | some (.str raw) =>
        match json_loads (clean_json_string raw) with
        | none => .ok [("error", .str "Invalid JSON format")]
        | some (.obj pkvs) =>
          .ok (setKey pkvs "overall_score" (.num ((overall_score pkvs : ℤ) : ℚ)))
        | some _ => .raised "AttributeError"
      | some _ => .raised "TypeError"

/-- The read path of the results page (`show_batch_statistics` /
`show_individual_results`): compute the parsed result from the stored task
result and hand back the store, which the computation never writes to. -/
def read_overall_score (stored : Option (List (String × Json))) :
    PyResult × Option (List (String × Json)) :=
  (parse_analysis_result stored, stored)

/-- Claim-side formula, following the claim's words: from each top-level
key whose value is a mapping, collect every numeric value stored under a
key whose name ends in level, rating or score. -/
def claimScoreValues (kvs : List (String × Json)) : List ℚ :=
  kvs.flatMap fun kv =>
    match kv.2 with
    | .obj inner =>
      inner.flatMap fun kv2 =>
        match pyNumeric kv2.2 with
        | some q => if keyIsScoreKey kv2.1 then [q] else []
        | none => []
    | _ => []

/-- Claim-side formula for the derived score: keep only strictly positive
collected values and set `overall_score = round(mean(kept) * 100)`, or 0
when no value qualifies. -/
def claimOverallScore (kvs : List (String × Json)) : ℤ :=
  let kept := (claimScoreValues kvs).filter (fun v => 0 < v)
  match kept with
  | [] => 0
  | _ => pyRound ((kept.sum / (kept.length : ℚ)) * 100)

/-- The example analysis text of the claim, as the raw stored string. -/
def exampleAnalysis : String :=
  "\x7b\"a\": \x7b\"rating\": 0\x7d, \"b\": \x7b\"level\": 4\x7d\x7d"

/-- The example input of the claim as a decoded object. -/
def exampleParsed : List (String × Json) :=
  [("a", .obj [("rating", .num 0)]), ("b", .obj [("level", .num 4)])]

lemma inner_collect_eq (inner : List (String × Json)) :
    (inner.flatMap fun kv2 =>
      match pyNumeric kv2.2 with
      | some q => if keyIsScoreKey kv2.1 then [q] else []
      | none => []) =
    inner.filterMap
      (fun kv2 => if keyIsScoreKey kv2.1 then pyNumeric kv2.2 else none) := by
  induction inner with
  | nil => rfl
  | cons kv2 rest2 ih2 =>
    simp only [List.flatMap_cons, List.filterMap_cons]
    cases h2 : pyNumeric kv2.2 <;> cases h1 : keyIsScoreKey kv2.1 <;>
      simp [h1, h2, ih2]

lemma claimScoreValues_eq_scoreComponents (kvs : List (String × Json)) :
    claimScoreValues kvs = scoreComponents kvs := by
  unfold claimScoreValues scoreComponents
  induction kvs with
  | nil => rfl
  | cons kv rest ih =>
    simp only [List.flatMap_cons, ih]
    congr 1
    cases kv.2 <;> try rfl
    exact inner_collect_eq _

lemma overall_score_eq_claim (kvs : List (String × Json)) :
    overall_score kvs = claimOverallScore kvs := by
  unfold overall_score claimOverallScore
  rw [claimScoreValues_eq_scoreComponents]
  cases (scoreComponents kvs).filter (fun s => 0 < s) <;> simp

lemma overall_score_example : overall_score exampleParsed = 400 := by
  have h1 : (scoreComponents exampleParsed).filter (fun s => 0 < s) = [4] :=
    by rfl
  simp only [overall_score, h1]
  norm_num [pyRound]

lemma parse_example_step :
    parse_analysis_result (some [("analysis", .str exampleAnalysis)]) =
      .ok (exampleParsed ++
        [("overall_score", .num ((overall_score exampleParsed : ℤ) : ℚ))]) :=
  by rfl

/-- C1: for every parsed analysis result, the derived overall_score
collects, from each top-level key whose value is a mapping, every numeric
value under a key ending in level, rating or score, keeps the strictly
positive ones, and equals round(mean * 100), or 0 when none qualify; the
input with a zero rating and a level of 4 yields overall_score = 400. -/
theorem c1_overall_score_formula :
    (∀ kvs : List (String × Json), overall_score kvs = claimOverallScore kvs)
    ∧ overall_score exampleParsed = 400
    ∧ parse_analysis_result (some [("analysis", .str exampleAnalysis)]) =
        .ok [("a", .obj [("rating", .num 0)]), ("b", .obj [("level", .num 4)]),
             ("overall_score", .num 400)] := by
  refine ⟨overall_score_eq_claim, overall_score_example, ?_⟩
  rw [parse_example_step, overall_score_example]
  norm_num [exampleParsed]

/-- C5 (amended): whenever a non-empty stored result carries an `analysis`
string that fails to decode as JSON (after stripping an optional fenced
block), `parse_analysis_result` returns the error-marker dict and no
exception escapes; the unamended universal claim fails because an analysis
that decodes to a non-object raises an uncaught `AttributeError`. -/
theorem c5_malformed_json_error_marker
    (kvs : List (String × Json)) (raw : String)
    (hne : kvs ≠ [])
    (hget : getKey kvs "analysis" = some (.str raw))
    (hload : json_loads (clean_json_string raw) = none) :
    parse_analysis_result (some kvs) =
      .ok [("error", .str "Invalid JSON format")] := by
  cases kvs with
  | nil => exact absurd rfl hne
  | cons a l =>
    simp only [parse_analysis_result, List.isEmpty_cons, Bool.false_eq_true,
      if_false, hget, hload]

/-- Witness for C5 at a concrete malformed analysis string. -/
theorem c5_witness :
    json_loads (clean_json_string "not json") = none ∧
    parse_analysis_result (some [("analysis", .str "not json")]) =
      .ok [("error", .str "Invalid JSON format")] :=
  ⟨by rfl,
   c5_malformed_json_error_marker [("analysis", .str "not json")] "not json"
     (by simp) (by rfl) (by rfl)⟩

/-- Counterexample for C5 as stated: an analysis value that decodes to a
JSON array reaches `parsed.items()` and an `AttributeError` escapes to the
caller, so not every raw result value is exception-free. -/
theorem c5_counterexample :
    parse_analysis_result (some [("analysis", .str "[1, 2, 3]")]) =
      .raised "AttributeError" := by rfl

/-- C9: recomputing the overall score on the same stored result is
deterministic and leaves the store untouched — the derived score is never
persisted back, and reading twice yields the same value. -/
theorem c9_score_recompute_idempotent :
    ∀ stored : Option (List (String × Json)),
      (read_overall_score stored).2 = stored ∧
      (read_overall_score ((read_overall_score stored).2)).1 =
        (read_overall_score stored).1 :=
  fun _ => ⟨rfl, rfl⟩

/-! ### `src/utils/batch_manager.py`

The `analysis_batches` and `analysis_tasks` tables are modelled as lists of
rows; an insert appends a row, an update-by-id maps over the rows.  The
outcome of each external call (a row insert against the hosted backend, a
model invocation against the generative API) is supplied as an oracle
argument. -/

/-- A row of the `analysis_batches` table (the columns the pipeline reads
and writes). -/
structure AnalysisBatchRow : Type where
  id : Nat
  model_name : String
  status : String
  progress : Nat
  total_videos : Nat
deriving Repr, DecidableEq

/-- A row of the `analysis_tasks` table (the columns the pipeline reads
and writes). -/
structure AnalysisTaskRow : Type where
  id : Nat
  batch_id : Nat
  video_id : Nat
  prompt_id : Nat
  status : String
  result : Option String
  error : Option String
deriving Repr, DecidableEq

/-- The slice of the hosted database the batch pipeline touches. -/
structure DB : Type where
  batches : List AnalysisBatchRow
  tasks : List AnalysisTaskRow
deriving Repr, DecidableEq

/-- The video × prompt pairs in the iteration order of
`create_analysis_batch` (outer loop over videos, inner over prompts). -/
def taskPairs (videos prompts : List Nat) : List (Nat × Nat) :=
  videos.flatMap fun v => prompts.map fun p => (v, p)

/-- The task-insert loop of `create_analysis_batch`: walk the pairs, ask
the oracle whether the insert for the k-th pair succeeds, append a pending
task row on success and continue on failure.  Returns the count of created
tasks and the updated table. -/
def createTasksLoop (batchId : Nat) (taskOk : Nat → Bool)
    (freshTaskId : Nat → Nat) :
    List (Nat × Nat) → Nat → List AnalysisTaskRow →
      Nat × List AnalysisTaskRow
  | [], _, ts => (0, ts)
  | pair :: rest, k, ts =>
    if taskOk k then
      let row : AnalysisTaskRow :=
        { id := freshTaskId k, batch_id := batchId, video_id := pair.1,
          prompt_id := pair.2, status := "pending", result := none,
          error := none }
      let res := createTasksLoop batchId taskOk freshTaskId rest (k + 1)
        (ts ++ [row])
      (res.1 + 1, res.2)
    else
      createTasksLoop batchId taskOk freshTaskId rest (k + 1) ts

/-- Embedding of `create_analysis_batch`.  A batch row with
`status = "pending"`, `progress = 0` and `total_videos = |V|` is inserted
first; if that insert fails the exception is caught and `None` is
returned with the database unchanged.  Otherwise one task insert is
attempted per video × prompt pair (failures are caught and skipped), and
the batch id is returned regardless of how many task inserts succeeded. -/
def create_analysis_batch (videos prompts : List Nat) (model_name : String)
    (batchOk : Bool) (taskOk : Nat → Bool)
    (freshBatchId : Nat) (freshTaskId : Nat → Nat) (db : DB) :
    Option Nat × DB :=
  if batchOk then
    let batchRow : AnalysisBatchRow :=
      { id := freshBatchId, model_name := model_name, status := "pending",
        progress := 0, total_videos := videos.length }
    let loop := createTasksLoop freshBatchId taskOk freshTaskId
      (taskPairs videos prompts) 0 db.tasks
    (some freshBatchId, { batches := db.batches ++ [batchRow],
                          tasks := loop.2 })
  else
    (none, db)

/-- The update `analysis_tasks.update({status: completed, result: ...})`
applied to the row with the given id. -/
def markCompleted (taskId : Nat) (analysis : String)
    (ts : List AnalysisTaskRow) : List AnalysisTaskRow :=
  ts.map fun t =>
    if t.id = taskId then
      { t with status := "completed", result := some analysis }
    else t

/-- The update `analysis_tasks.update({status: failed, error: ...})`
applied to the row with the given id. -/
def markFailed (taskId : Nat) (err : String)
    (ts : List AnalysisTaskRow) : List AnalysisTaskRow :=
  ts.map fun t =>
    if t.id = taskId then { t with status := "failed", error := some err }
    else t

/-- The update `analysis_batches.update({progress, status})` written after
a completed task: progress is the running count of completed tasks, status
is `processing` until the count reaches the pass total, then
`completed`. -/
def updateBatchProgress (batchId completed total : Nat) :
    List AnalysisBatchRow → List AnalysisBatchRow
  | [] => []
  | b :: rest =>
    (if b.id = batchId then
      { b with progress := completed,
               status := if completed < total then "processing"
                         else "completed" }
    else b) :: updateBatchProgress batchId completed total rest

/-- The per-task loop of `process_batch_tasks` over the snapshot of
pending tasks.  `outcome` gives, per task id, either the model's analysis
text or the stringified exception of any failing step of the try block.
A success marks the task completed and then updates the batch's progress
and status; a failure marks the task failed and continues without
touching the batch row. -/
def runTasksLoop (batchId : Nat) (outcome : Nat → Except String String)
    (total : Nat) : List AnalysisTaskRow → Nat → DB → DB
  | [], _, db => db
  | t :: rest, completed, db =>
    match outcome t.id with
    | .ok analysis =>
      let db1 : DB := { db with tasks := markCompleted t.id analysis db.tasks }
      let db2 : DB :=
        { db1 with batches :=
            updateBatchProgress batchId (completed + 1) total db1.batches }
      runTasksLoop batchId outcome total rest (completed + 1) db2
    | .error e =>
      let db1 : DB := { db with tasks := markFailed t.id e db.tasks }
      runTasksLoop batchId outcome total rest completed db1

/-- The pending-task query of `process_batch_tasks`: the tasks of this
batch whose status is `pending`, in insertion order. -/
def pendingTasks (batchId : Nat) (db : DB) : List AnalysisTaskRow :=
  db.tasks.filter fun t => t.batch_id = batchId ∧ t.status = "pending"

/-- Embedding of `process_batch_tasks`: look the batch up, query its
pending tasks, and when both exist run the per-task loop with the pass
total fixed to the number of pending tasks; otherwise leave the database
unchanged. -/
def process_batch_tasks (batchId : Nat)
    (outcome : Nat → Except String String) (db : DB) : DB :=
  match db.batches.find? (fun b => b.id = batchId) with
  | none => db
  | some _ =>
    if (pendingTasks batchId db).isEmpty then db
    else runTasksLoop batchId outcome (pendingTasks batchId db).length
      (pendingTasks batchId db) 0 db

lemma taskPairs_length (videos prompts : List Nat) :
    (taskPairs videos prompts).length = videos.length * prompts.length := by
  induction videos with
  | nil => simp [taskPairs]
  | cons v rest ih =>
    simp only [taskPairs, List.flatMap_cons, List.length_append,
      List.length_map, List.length_cons] at *
    rw [ih]; ring

lemma createTasksLoop_all_ok (batchId : Nat) (taskOk : Nat → Bool)
    (freshTaskId : Nat → Nat) (hok : ∀ k, taskOk k = true) :
    ∀ (pairs : List (Nat × Nat)) (k : Nat) (ts : List AnalysisTaskRow),
      ∃ newTasks : List AnalysisTaskRow,
        createTasksLoop batchId taskOk freshTaskId pairs k ts =
          (pairs.length, ts ++ newTasks) ∧
        newTasks.length = pairs.length ∧
        ∀ t ∈ newTasks, t.status = "pending" ∧ t.batch_id = batchId := by
  intro pairs
  induction pairs with
  | nil => intro k ts; exact ⟨[], by simp [createTasksLoop], by simp, by simp⟩
  | cons pair rest ih =>
    intro k ts
    obtain ⟨nt, heq, hlen, hall⟩ := ih (k + 1)
      (ts ++ [{ id := freshTaskId k, batch_id := batchId, video_id := pair.1,
                prompt_id := pair.2, status := "pending", result := none,
                error := none }])
    refine ⟨{ id := freshTaskId k, batch_id := batchId, video_id := pair.1,
              prompt_id := pair.2, status := "pending", result := none,
              error := none } :: nt, ?_, by simp [hlen], ?_⟩
    · simp only [createTasksLoop, hok k, if_true, heq]
      simp
    · intro t ht
      rcases List.mem_cons.mp ht with h | h
      · subst h; exact ⟨rfl, rfl⟩
      · exact hall t h

lemma createTasksLoop_all_fail (batchId : Nat) (freshTaskId : Nat → Nat) :
    ∀ (pairs : List (Nat × Nat)) (k : Nat) (ts : List AnalysisTaskRow),
      createTasksLoop batchId (fun _ => false) freshTaskId pairs k ts =
        (0, ts) := by
  intro pairs
  induction pairs with
  | nil => intro k ts; rfl
  | cons pair rest ih => intro k ts; simp only [createTasksLoop]; exact ih _ _

/-- C2: for non-empty videos and prompts and a model identifier, when
every insert succeeds the Batch Builder appends exactly one AnalysisBatch
row and exactly |V| × |P| AnalysisTask rows, all pending and attached to
the new batch, and returns the id of the created batch. -/
theorem c2_batch_builder_counts
    (videos prompts : List Nat) (model_name : String) (taskOk : Nat → Bool)
    (freshBatchId : Nat) (freshTaskId : Nat → Nat) (db : DB)
    (hv : videos ≠ []) (hp : prompts ≠ []) (hok : ∀ k, taskOk k = true) :
    (create_analysis_batch videos prompts model_name true taskOk
        freshBatchId freshTaskId db).1 = some freshBatchId ∧
    (create_analysis_batch videos prompts model_name true taskOk
        freshBatchId freshTaskId db).2.batches =
      db.batches ++
        [{ id := freshBatchId, model_name := model_name,
           status := "pending", progress := 0,
           total_videos := videos.length }] ∧
    ∃ newTasks : List AnalysisTaskRow,
      (create_analysis_batch videos prompts model_name true taskOk
          freshBatchId freshTaskId db).2.tasks = db.tasks ++ newTasks ∧
      newTasks.length = videos.length * prompts.length ∧
      ∀ t ∈ newTasks, t.status = "pending" ∧ t.batch_id = freshBatchId := by
  obtain ⟨nt, heq, hlen, hall⟩ :=
    createTasksLoop_all_ok freshBatchId taskOk freshTaskId hok
      (taskPairs videos prompts) 0 db.tasks
  refine ⟨rfl, rfl, nt, ?_, ?_, hall⟩
  · simp [create_analysis_batch, heq]
  · rw [hlen, taskPairs_length]

/-- Witness for C2 at two videos and three prompts over an empty
database: six pending tasks and one batch row are created. -/
theorem c2_witness :
    ([1, 2] : List Nat) ≠ [] ∧ ([10, 20, 30] : List Nat) ≠ [] ∧
    ((create_analysis_batch [1, 2] [10, 20, 30] "gemini-1.5" true
        (fun _ => true) 7 (fun k => k) ⟨[], []⟩).1 = some 7 ∧
     (create_analysis_batch [1, 2] [10, 20, 30] "gemini-1.5" true
        (fun _ => true) 7 (fun k => k) ⟨[], []⟩).2.batches =
       ([] : List AnalysisBatchRow) ++
         [{ id := 7, model_name := "gemini-1.5", status := "pending",
            progress := 0, total_videos := 2 }] ∧
     ∃ newTasks : List AnalysisTaskRow,
       (create_analysis_batch [1, 2] [10, 20, 30] "gemini-1.5" true
          (fun _ => true) 7 (fun k => k) ⟨[], []⟩).2.tasks =
         ([] : List AnalysisTaskRow) ++ newTasks ∧
       newTasks.length = 2 * 3 ∧
       ∀ t ∈ newTasks, t.status = "pending" ∧ t.batch_id = 7) :=
  ⟨by simp, by simp,
   c2_batch_builder_counts [1, 2] [10, 20, 30] "gemini-1.5" (fun _ => true)
     7 (fun k => k) ⟨[], []⟩ (by simp) (by simp) (fun _ => rfl)⟩

/-- Whether a model invocation outcome is a success. -/
def isOkOutcome : Except String String → Bool
  | .ok _ => true
  | .error _ => false

/-- Number of tasks of a pass whose model invocation succeeds. -/
def successCount (outcome : Nat → Except String String)
    (ts : List AnalysisTaskRow) : Nat :=
  (ts.filter fun t => isOkOutcome (outcome t.id)).length

lemma updateBatchProgress_comp (batchId c1 c2 total : Nat)
    (bs : List AnalysisBatchRow) :
    updateBatchProgress batchId c2 total
      (updateBatchProgress batchId c1 total bs) =
    updateBatchProgress batchId c2 total bs := by
  induction bs with
  | nil => rfl
  | cons b rest ih =>
    by_cases h : b.id = batchId <;> simp [updateBatchProgress, h, ih]

lemma find?_updateBatchProgress (batchId c total : Nat)
    (bs : List AnalysisBatchRow) :
    (updateBatchProgress batchId c total bs).find?
        (fun row => row.id = batchId) =
      (bs.find? (fun row => row.id = batchId)).map
        (fun b => { b with progress := c,
                           status := if c < total then "processing"
                                     else "completed" }) := by
  induction bs with
  | nil => rfl
  | cons b rest ih =>
    by_cases h : b.id = batchId <;>
      simp [updateBatchProgress, List.find?_cons, h, ih]


lemma runTasksLoop_batches (batchId : Nat)
    (outcome : Nat → Except String String) (total : Nat) :
    ∀ (ts : List AnalysisTaskRow) (completed : Nat) (db : DB),
      (runTasksLoop batchId outcome total ts completed db).batches =
        if successCount outcome ts = 0 then db.batches
        else updateBatchProgress batchId
          (completed + successCount outcome ts) total db.batches := by
  intro ts
  induction ts with
  | nil => intro completed db; simp [runTasksLoop, successCount]
  | cons t rest ih =>
    intro completed db
    cases hout : outcome t.id with
    | ok a =>
      have hcnt : successCount outcome (t :: rest) =
          successCount outcome rest + 1 := by
        simp [successCount, List.filter_cons, hout, isOkOutcome]
      simp only [runTasksLoop, hout, ih, hcnt]
      by_cases h0 : successCount outcome rest = 0 <;>
        simp [h0, updateBatchProgress_comp] <;> congr 1 <;> omega
    | error e =>
      have hcnt : successCount outcome (t :: rest) =
          successCount outcome rest := by
        simp [successCount, List.filter_cons, hout, isOkOutcome]
      simp only [runTasksLoop, hout, ih, hcnt]

/-- C3 (amended): after a pass of the Batch Runner the batch's progress
equals the number of tasks of the pass whose invocation succeeded — a
failed task does not increment it — and the status is recalculated to
processing, or to completed exactly when every task of the pass
completed; with no success at all the batch row is left untouched. -/
theorem c3_progress_counts_completed_only
    (db : DB) (batchId : Nat) (outcome : Nat → Except String String)
    (b : AnalysisBatchRow)
    (hfind : db.batches.find? (fun row => row.id = batchId) = some b)
    (hne : pendingTasks batchId db ≠ []) :
    (process_batch_tasks batchId outcome db).batches.find?
        (fun row => row.id = batchId) =
      some (if successCount outcome (pendingTasks batchId db) = 0 then b
            else
              { b with
                progress := successCount outcome (pendingTasks batchId db),
                status :=
                  if successCount outcome (pendingTasks batchId db) <
                      (pendingTasks batchId db).length
                  then "processing" else "completed" }) := by
  unfold process_batch_tasks
  rw [hfind]
  rw [if_neg (by simp [List.isEmpty_iff, hne])]
  rw [runTasksLoop_batches]
  by_cases h0 : successCount outcome (pendingTasks batchId db) = 0
  · simp [h0, hfind]
  · rw [if_neg h0, find?_updateBatchProgress, hfind]
    simp [h0]

/-- Witness for C3: a 2-video × 3-prompt batch whose six pending tasks
all succeed ends with progress 6 and status completed. -/
theorem c3_witness :
    ({ batches := [{ id := 0, model_name := "m", status := "pending",
                     progress := 0, total_videos := 2 }],
       tasks := (List.range 6).map fun k =>
         { id := k + 1, batch_id := 0, video_id := k / 3,
           prompt_id := k % 3, status := "pending", result := none,
           error := none } } : DB).batches.find?
        (fun row => row.id = 0) =
      some { id := 0, model_name := "m", status := "pending",
             progress := 0, total_videos := 2 } ∧
    pendingTasks 0
      { batches := [{ id := 0, model_name := "m", status := "pending",
                      progress := 0, total_videos := 2 }],
        tasks := (List.range 6).map fun k =>
          { id := k + 1, batch_id := 0, video_id := k / 3,
            prompt_id := k % 3, status := "pending", result := none,
            error := none } } ≠ [] ∧
    (process_batch_tasks 0 (fun _ => .ok "analysis")
        { batches := [{ id := 0, model_name := "m", status := "pending",
                        progress := 0, total_videos := 2 }],
          tasks := (List.range 6).map fun k =>
            { id := k + 1, batch_id := 0, video_id := k / 3,
              prompt_id := k % 3, status := "pending", result := none,
              error := none } }).batches.find? (fun row => row.id = 0) =
      some { id := 0, model_name := "m", status := "completed",
             progress := 6, total_videos := 2 } := by
  refine ⟨by decide, by decide, ?_⟩
  have h := c3_progress_counts_completed_only
    { batches := [{ id := 0, model_name := "m", status := "pending",
                    progress := 0, total_videos := 2 }],
      tasks := (List.range 6).map fun k =>
        { id := k + 1, batch_id := 0, video_id := k / 3,
          prompt_id := k % 3, status := "pending", result := none,
          error := none } } 0 (fun _ => .ok "analysis")
    { id := 0, model_name := "m", status := "pending", progress := 0,
      total_videos := 2 } (by decide) (by decide)
  rw [h]
  decide

/-- Counterexample for C3 as stated: a pass over a single pending task
whose invocation fails marks the task failed but leaves the batch row's
progress at 0 and its status untouched, so the progress counter is not
incremented after every processed task. -/
theorem c3_counterexample :
    process_batch_tasks 0 (fun _ => .error "boom")
      { batches := [{ id := 0, model_name := "m", status := "pending",
                      progress := 0, total_videos := 1 }],
        tasks := [{ id := 1, batch_id := 0, video_id := 5, prompt_id := 9,
                    status := "pending", result := none, error := none }] } =
      { batches := [{ id := 0, model_name := "m", status := "pending",
                      progress := 0, total_videos := 1 }],
        tasks := [{ id := 1, batch_id := 0, video_id := 5, prompt_id := 9,
                    status := "failed", result := none,
                    error := some "boom" }] } := by
  decide

/-- The status the Batch Runner writes for a task, as a function of its
invocation outcome. -/
def outcomeStatus (outcome : Nat → Except String String) (tid : Nat) :
    String :=
  match outcome tid with
  | .ok _ => "completed"
  | .error _ => "failed"

lemma markCompleted_getElem (taskId : Nat) (a : String)
    (ts : List AnalysisTaskRow) (i : Nat) (t : AnalysisTaskRow)
    (h : ts[i]? = some t) :
    (markCompleted taskId a ts)[i]? =
      some (if t.id = taskId then
        { t with status := "completed", result := some a } else t) := by
  simp [markCompleted, List.getElem?_map, h]

lemma markFailed_getElem (taskId : Nat) (e : String)
    (ts : List AnalysisTaskRow) (i : Nat) (t : AnalysisTaskRow)
    (h : ts[i]? = some t) :
    (markFailed taskId e ts)[i]? =
      some (if t.id = taskId then
        { t with status := "failed", error := some e } else t) := by
  simp [markFailed, List.getElem?_map, h]

lemma runTasksLoop_task_status (batchId : Nat)
    (outcome : Nat → Except String String) (total : Nat) :
    ∀ (ts : List AnalysisTaskRow) (completed : Nat) (db : DB) (i : Nat)
      (t : AnalysisTaskRow),
      db.tasks[i]? = some t →
      ∃ t', (runTasksLoop batchId outcome total ts completed db).tasks[i]? =
          some t' ∧
        t'.id = t.id ∧
        ((∀ u ∈ ts, u.id ≠ t.id) → t' = t) ∧
        ((∃ u ∈ ts, u.id = t.id) →
          t'.status = outcomeStatus outcome t.id) := by
  intro ts
  induction ts with
  | nil =>
    intro completed db i t h
    exact ⟨t, h, rfl, fun _ => rfl,
      fun ⟨u, hu, _⟩ => absurd hu (List.not_mem_nil u)⟩
  | cons u rest ih =>
    intro completed db i t h
    cases hout : outcome u.id with
    | ok a =>
      obtain ⟨t', ht', hid, hno, hyes⟩ :=
        ih (completed + 1)
          { batches :=
              updateBatchProgress batchId (completed + 1) total db.batches,
            tasks := markCompleted u.id a db.tasks } i
          (if t.id = u.id then
            { t with status := "completed", result := some a } else t)
          (markCompleted_getElem u.id a db.tasks i t h)
      have hid1 : (if t.id = u.id then
          { t with status := "completed", result := some a } else t).id =
          t.id := by
        by_cases hh : t.id = u.id <;> simp [hh]
      refine ⟨t', ?_, hid.trans hid1, ?_, ?_⟩
      · simp only [runTasksLoop, hout]
        exact ht'
      · intro hall
        have hneg : ¬ t.id = u.id :=
          fun hh => hall u (List.mem_cons_self u rest) hh.symm
        rw [if_neg hneg] at hno
        exact hno fun v hv => hall v (List.mem_cons_of_mem u hv)
      · rintro ⟨v, hv, hvid⟩
        by_cases hh : t.id = u.id
        · rw [if_pos hh] at hno hyes
          by_cases hrest : ∃ w ∈ rest, w.id = t.id
          · obtain ⟨w, hw, hwid⟩ := hrest
            have hstat := hyes ⟨w, hw, by simpa using hwid⟩
            simpa using hstat
          · push_neg at hrest
            have ht'e : t' =
                { t with status := "completed", result := some a } :=
              hno fun w hw => by simpa using hrest w hw
            rw [ht'e]
            simp [outcomeStatus, hh, hout]
        · rcases List.mem_cons.mp hv with rfl | hvrest
          · exact absurd hvid.symm hh
          · rw [if_neg hh] at hyes
            exact hyes ⟨v, hvrest, hvid⟩
    | error e =>
      obtain ⟨t', ht', hid, hno, hyes⟩ :=
        ih completed
          { db with tasks := markFailed u.id e db.tasks } i
          (if t.id = u.id then
            { t with status := "failed", error := some e } else t)
          (markFailed_getElem u.id e db.tasks i t h)
      have hid1 : (if t.id = u.id then
          { t with status := "failed", error := some e } else t).id =
          t.id := by
        by_cases hh : t.id = u.id <;> simp [hh]
      refine ⟨t', ?_, hid.trans hid1, ?_, ?_⟩
      · simp only [runTasksLoop, hout]
        exact ht'
      · intro hall
        have hneg : ¬ t.id = u.id :=
          fun hh => hall u (List.mem_cons_self u rest) hh.symm
        rw [if_neg hneg] at hno
        exact hno fun v hv => hall v (List.mem_cons_of_mem u hv)
      · rintro ⟨v, hv, hvid⟩
        by_cases hh : t.id = u.id
        · rw [if_pos hh] at hno hyes
          by_cases hrest : ∃ w ∈ rest, w.id = t.id
          · obtain ⟨w, hw, hwid⟩ := hrest
            have hstat := hyes ⟨w, hw, by simpa using hwid⟩
            simpa using hstat
          · push_neg at hrest
            have ht'e : t' =
                { t with status := "failed", error := some e } :=
              hno fun w hw => by simpa using hrest w hw
            rw [ht'e]
            simp [outcomeStatus, hh, hout]
        · rcases List.mem_cons.mp hv with rfl | hvrest
          · exact absurd hvid.symm hh
          · rw [if_neg hh] at hyes
            exact hyes ⟨v, hvrest, hvid⟩

/-- C4: a pass of the Batch Runner moves a task's status only from
pending to completed or failed — a task whose status is not pending is
left untouched, and no task ever has pending written back (task ids are
unique, as for rows of a keyed table). -/
theorem c4_task_status_monotonic
    (batchId : Nat) (outcome : Nat → Except String String) (db : DB)
    (i : Nat) (t t' : AnalysisTaskRow)
    (hnodup : (db.tasks.map AnalysisTaskRow.id).Nodup)
    (ht : db.tasks[i]? = some t)
    (ht' : (process_batch_tasks batchId outcome db).tasks[i]? = some t') :
    (t'.status = t.status ∨
      (t.status = "pending" ∧
        (t'.status = "completed" ∨ t'.status = "failed"))) ∧
    (t'.status = "pending" → t.status = "pending") := by
  have main : t'.status = t.status ∨
      (t.status = "pending" ∧
        (t'.status = "completed" ∨ t'.status = "failed")) := by
    unfold process_batch_tasks at ht'
    cases hfind : db.batches.find? (fun b => b.id = batchId) with
    | none =>
      rw [hfind] at ht'
      left
      rw [Option.some.inj (ht.symm.trans ht')]
    | some b =>
      rw [hfind] at ht'
      by_cases hemp : (pendingTasks batchId db).isEmpty
      · rw [if_pos hemp] at ht'
        left
        rw [Option.some.inj (ht.symm.trans ht')]
      · rw [if_neg hemp] at ht'
        obtain ⟨t'', ht'', hid, hno, hyes⟩ :=
          runTasksLoop_task_status batchId outcome
            (pendingTasks batchId db).length (pendingTasks batchId db) 0 db
            i t ht
        have heq : t'' = t' := Option.some.inj (ht''.symm.trans ht')
        subst heq
        by_cases hex : ∃ u ∈ pendingTasks batchId db, u.id = t.id
        · right
          obtain ⟨u, hu, huid⟩ := hex
          have hu_mem : u ∈ db.tasks := List.mem_of_mem_filter hu
          have ht_mem : t ∈ db.tasks := List.getElem?_mem ht
          have hut : u = t :=
            List.inj_on_of_nodup_map hnodup hu_mem ht_mem huid
          have hupend := List.of_mem_filter hu
          simp only [decide_eq_true_eq] at hupend
          refine ⟨hut ▸ hupend.2, ?_⟩
          have hst := hyes ⟨u, hu, huid⟩
          unfold outcomeStatus at hst
          cases houtt : outcome t.id <;> rw [houtt] at hst <;>
            simp only [] at hst
          · exact Or.inr hst
          · exact Or.inl hst
        · left
          push_neg at hex
          rw [hno fun v hv => hex v hv]
  refine ⟨main, fun hp => ?_⟩
  rcases main with hsame | ⟨hpend, _⟩
  · rw [← hsame, hp]
  · exact hpend

/-- Witness for C4: a database with one pending and one completed task
(unique ids); after the pass the pending task is completed and the other
row untouched. -/
theorem c4_witness :
    ((({ batches := [{ id := 0, model_name := "m", status := "pending",
                       progress := 0, total_videos := 1 }],
         tasks := [{ id := 1, batch_id := 0, video_id := 5, prompt_id := 9,
                     status := "pending", result := none, error := none }] } :
        DB).tasks.map AnalysisTaskRow.id).Nodup ∧
     ({ batches := [{ id := 0, model_name := "m", status := "pending",
                      progress := 0, total_videos := 1 }],
        tasks := [{ id := 1, batch_id := 0, video_id := 5, prompt_id := 9,
                    status := "pending", result := none, error := none }] } :
        DB).tasks[0]? =
       some { id := 1, batch_id := 0, video_id := 5, prompt_id := 9,
              status := "pending", result := none, error := none } ∧
     (process_batch_tasks 0 (fun _ => .ok "fine")
        { batches := [{ id := 0, model_name := "m", status := "pending",
                        progress := 0, total_videos := 1 }],
          tasks := [{ id := 1, batch_id := 0, video_id := 5, prompt_id := 9,
                      status := "pending", result := none,
                      error := none }] }).tasks[0]? =
       some { id := 1, batch_id := 0, video_id := 5, prompt_id := 9,
              status := "completed", result := some "fine",
              error := none }) ∧
    (("completed" = "pending" ∨
       ("pending" = "pending" ∧
         ("completed" = "completed" ∨ "completed" = "failed"))) ∧
     ("completed" = "pending" → "pending" = "pending")) :=
  ⟨⟨by decide, by decide, by decide⟩,
   c4_task_status_monotonic 0 (fun _ => .ok "fine")
     { batches := [{ id := 0, model_name := "m", status := "pending",
                     progress := 0, total_videos := 1 }],
       tasks := [{ id := 1, batch_id := 0, video_id := 5, prompt_id := 9,
                   status := "pending", result := none, error := none }] }
     0
     { id := 1, batch_id := 0, video_id := 5, prompt_id := 9,
       status := "pending", result := none, error := none }
     { id := 1, batch_id := 0, video_id := 5, prompt_id := 9,
       status := "completed", result := some "fine", error := none }
     (by decide) (by decide) (by decide)⟩

/-- C10: the Batch Builder's return value ignores task-insert failures —
with a successful batch insert it returns the batch id under every
task-insert oracle, it returns None exactly when the batch insert itself
fails, and when every task insert fails the returned id is accompanied by
no new task row at all. -/
theorem c10_batch_id_despite_task_failures
    (videos prompts : List Nat) (model_name : String) (taskOk : Nat → Bool)
    (freshBatchId : Nat) (freshTaskId : Nat → Nat) (db : DB) :
    (create_analysis_batch videos prompts model_name true taskOk
        freshBatchId freshTaskId db).1 = some freshBatchId ∧
    create_analysis_batch videos prompts model_name false taskOk
        freshBatchId freshTaskId db = (none, db) ∧
    (create_analysis_batch videos prompts model_name true (fun _ => false)
        freshBatchId freshTaskId db).2.tasks = db.tasks := by
  refine ⟨rfl, rfl, ?_⟩
  simp [create_analysis_batch, createTasksLoop_all_fail]

/-! ### `src/utils/videos.py` and `src/utils/video_processor.py`

The Gemini file-state poll is driven by the sequence of states the remote
file reports at successive checks (`states n` is the `state.name` seen by
the n-th `genai.get_file` call).  The loop itself is `while True` with a
2-second sleep; it is modelled by the partial function giving its result
when at most `checks` polls are observed, `none` meaning the loop is still
running after that many polls. -/

/-- How the file-ready wait ends: the file reached `ACTIVE`, or it
reported `FAILED` (which raises, is caught, and turns into `None`). -/
inductive WaitOutcome : Type where
  | ready : WaitOutcome
  | failedState : WaitOutcome
deriving Repr, DecidableEq

/-- The poll loop of `upload_to_gemini` started at check index `i`,
observed for at most `fuel` checks. -/
def waitFrom (states : Nat → String) : Nat → Nat → Option WaitOutcome
  | _, 0 => none
  | i, fuel + 1 =>
    if states i = "ACTIVE" then some .ready
    else if states i = "FAILED" then some .failedState
    else waitFrom states (i + 1) fuel

/-- The poll loop of `upload_to_gemini` observed for at most `checks`
polls from its start. -/
def waitWithin (states : Nat → String) (checks : Nat) : Option WaitOutcome :=
  waitFrom states 0 checks

/-- Embedding of `upload_to_gemini`, observed for at most `checks` polls:
`some (some name)` when the file became active, `some none` when the
initial upload raised or the file reported `FAILED` (the exception is
caught and `None` returned), and `none` when the loop is still polling. -/
def upload_to_gemini (uploadOk : Bool) (fileName : String)
    (states : Nat → String) (checks : Nat) : Option (Option String) :=
  if uploadOk then
    match waitWithin states checks with
    | some .ready => some (some fileName)
    | some .failedState => some none
    | none => none
  else some none

/-- The property claimed of the poll: a single attempt ceiling after
which the loop has always ended, whatever the file reports. -/
def boundedPollTermination (bound : Nat) : Prop :=
  ∀ uploadOk fileName states,
    (upload_to_gemini uploadOk fileName states bound).isSome

lemma waitFrom_const_processing (fuel i : Nat) :
    waitFrom (fun _ => "PROCESSING") i fuel = none := by
  induction fuel generalizing i with
  | zero => rfl
  | succ n ih => simp [waitFrom, ih]

lemma waitFrom_isSome_iff (states : Nat → String) :
    ∀ (fuel i : Nat),
      (waitFrom states i fuel).isSome ↔
        ∃ k < fuel, states (i + k) = "ACTIVE" ∨ states (i + k) = "FAILED" := by
  intro fuel
  induction fuel with
  | zero => intro i; simp [waitFrom]
  | succ n ih =>
    intro i
    by_cases ha : states i = "ACTIVE"
    · simp only [waitFrom, ha, if_true]
      constructor
      · intro _; exact ⟨0, Nat.succ_pos n, by simpa using Or.inl ha⟩
      · intro _; rfl
    · by_cases hf : states i = "FAILED"
      · simp only [waitFrom, ha, hf, if_true, if_false]
        constructor
        · intro _; exact ⟨0, Nat.succ_pos n, by simpa using Or.inr hf⟩
        · intro _; rfl
      · simp only [waitFrom, ha, hf, if_false]
        rw [ih (i + 1)]
        constructor
        · rintro ⟨k, hk, hterm⟩
          exact ⟨k + 1, by omega, by
            have : i + 1 + k = i + (k + 1) := by omega
            rwa [this] at hterm⟩
        · rintro ⟨k, hk, hterm⟩
          cases k with
          | zero => simp at hterm; exact absurd hterm (by simp [ha, hf])
          | succ k' =>
            exact ⟨k', by omega, by
              have : i + (k' + 1) = i + 1 + k' := by omega
              rwa [this] at hterm⟩

/-- C6 (amended): the file-ready wait is a fixed-interval poll with no
upper bound on attempts — it ends exactly when the initial upload fails
outright or some poll observes the file `ACTIVE` or `FAILED`; on a file
that stays processing forever the loop never ends. -/
theorem c6_poll_terminates_iff_eventually_terminal
    (uploadOk : Bool) (fileName : String) (states : Nat → String) :
    (∃ checks, (upload_to_gemini uploadOk fileName states checks).isSome) ↔
      (uploadOk = false ∨
        ∃ n, states n = "ACTIVE" ∨ states n = "FAILED") := by
  cases uploadOk with
  | false =>
    constructor
    · intro _; exact Or.inl rfl
    · intro _; exact ⟨0, by simp [upload_to_gemini]⟩
  | true =>
    constructor
    · rintro ⟨checks, hck⟩
      right
      have hsome : (waitWithin states checks).isSome := by
        by_contra hnone
        rw [Option.not_isSome_iff_eq_none] at hnone
        simp [upload_to_gemini, hnone] at hck
      obtain ⟨k, _, hterm⟩ := (waitFrom_isSome_iff states checks 0).mp hsome
      exact ⟨k, by simpa using hterm⟩
    · rintro (h | ⟨n, hterm⟩)
      · exact absurd h (by simp)
      · refine ⟨n + 1, ?_⟩
        have hsome : (waitWithin states (n + 1)).isSome :=
          (waitFrom_isSome_iff states (n + 1) 0).mpr
            ⟨n, Nat.lt_succ_self n, by simpa using hterm⟩
        rw [Option.isSome_iff_exists] at hsome
        obtain ⟨r, hr⟩ := hsome
        cases r <;> simp [upload_to_gemini, waitWithin] at hr ⊢ <;>
          rw [hr] <;> rfl

/-- Counterexample for C6 as stated: no attempt ceiling makes the poll
always end — a file that reports `PROCESSING` at every check keeps the
`while True` loop running past any bound. -/
theorem c6_counterexample : ¬ ∃ bound, boundedPollTermination bound := by
  rintro ⟨bound, hb⟩
  have h := hb true "f" (fun _ => "PROCESSING")
  rw [show upload_to_gemini true "f" (fun _ => "PROCESSING") bound = none
      from by simp [upload_to_gemini, waitWithin,
                    waitFrom_const_processing]] at h
  exact absurd h (by simp)

/-- A row of the `videos` table (the columns the ingest path writes). -/
structure VideoRow : Type where
  gemini_file_id : String
  group_id : Nat
  thumbnail_path : Option String
  source_url : Option String
  is_red : Bool
deriving Repr, DecidableEq

/-- What one ingest run did: whether `generate_thumbnail` was invoked,
whether `upload_thumbnail` was invoked, and the `videos` row inserted by
`add_video`, if any. -/
structure IngestResult : Type where
  thumbnailAttempted : Bool
  thumbnailUploaded : Bool
  video : Option VideoRow
deriving Repr, DecidableEq

/-- Embedding of `add_video`: the inserted row copies `is_red` from the
target group, and stores the external file id, thumbnail path, source url
and group. -/
def add_video (gemini_file_id : String) (groupId : Nat)
    (groupIsRed : Bool) (thumbnail_path : Option String)
    (source_url : Option String) : VideoRow :=
  { gemini_file_id := gemini_file_id, group_id := groupId,
    thumbnail_path := thumbnail_path, source_url := source_url,
    is_red := groupIsRed }

/-- The storage path `upload_thumbnail` writes for a video id. -/
def thumbnailPath (videoId : String) : String :=
  "videos/thumbnails/" ++ videoId ++ ".jpg"

namespace Videos

/-- Embedding of `process_video_upload` from `src/utils/videos.py`: the
group's `is_red` flag is read first; a thumbnail is generated only when
the group is not red (`thumbOk` is whether `generate_thumbnail` returns
data rather than `None`); the video is uploaded to Gemini
(`geminiFile` is the returned file id, `none` on failure); on success the
thumbnail, when one was generated, is uploaded (`thumbUploadOk` is
whether that upload returns a path) and the `videos` row is inserted. -/
def process_video_upload (groupIsRed : Bool) (groupId : Nat)
    (thumbOk : Bool) (geminiFile : Option String) (thumbUploadOk : Bool)
    (source_url : Option String) : IngestResult :=
  let thumbData : Bool := if !groupIsRed then thumbOk else false
  match geminiFile with
  | some fid =>
    let thumbPath : Option String :=
      if thumbData then
        (if thumbUploadOk then some (thumbnailPath fid) else none)
      else none
    { thumbnailAttempted := !groupIsRed,
      thumbnailUploaded := thumbData,
      video := some (add_video fid groupId groupIsRed thumbPath source_url) }
  | none =>
    { thumbnailAttempted := !groupIsRed,
      thumbnailUploaded := false,
      video := none }

end Videos

namespace VideoProcessor

/-- Embedding of `process_video_upload` from
`src/utils/video_processor.py` (the variant `utils/dreemz_csv.py`
imports): `generate_thumbnail` is invoked unconditionally, with no
`is_red` check; the row is inserted only when both the Gemini upload and
the thumbnail generation succeeded, and it carries the uploaded
thumbnail's path. -/
def process_video_upload (groupIsRed : Bool) (groupId : Nat)
    (thumbOk : Bool) (geminiFile : Option String) (thumbUploadOk : Bool)
    (source_url : Option String) : IngestResult :=
  match geminiFile, thumbOk with
  | some fid, true =>
    { thumbnailAttempted := true,
      thumbnailUploaded := true,
      video := some (add_video fid groupId groupIsRed
        (if thumbUploadOk then some (thumbnailPath fid) else none)
        source_url) }
  | _, _ =>
    { thumbnailAttempted := true,
      thumbnailUploaded := false,
      video := none }

end VideoProcessor

/-- C7: on the paths through `utils/videos.process_video_upload` (local
file, direct URL, both CSV tabs) a red group suppresses thumbnail work
entirely and the inserted row carries `is_red` with no thumbnail
reference; but the path through `utils/video_processor.process_video_upload`
(used by the Dreemz CSV module) generates and uploads a thumbnail for a
red group and persists its path, contradicting the claim — the concrete
run below evaluates that failing input. -/
theorem c7_red_group_thumbnail_paths :
    (∀ (groupId : Nat) (thumbOk : Bool) (geminiFile : Option String)
       (thumbUploadOk : Bool) (src : Option String),
      Videos.process_video_upload true groupId thumbOk geminiFile
          thumbUploadOk src =
        { thumbnailAttempted := false, thumbnailUploaded := false,
          video := geminiFile.map fun fid =>
            { gemini_file_id := fid, group_id := groupId,
              thumbnail_path := none, source_url := src,
              is_red := true } }) ∧
    VideoProcessor.process_video_upload true 3 true (some "f1") true
        (some "http://v") =
      { thumbnailAttempted := true, thumbnailUploaded := true,
        video := some
          { gemini_file_id := "f1", group_id := 3,
            thumbnail_path := some "videos/thumbnails/f1.jpg",
            source_url := some "http://v", is_red := true } } := by
  constructor
  · intro groupId thumbOk geminiFile thumbUploadOk src
    cases geminiFile <;> rfl
  · rfl

/-! ### The CSV import tabs of `manage_video_groups`

The two import tabs reject a CSV whose required URL column is absent
before the per-row processing loop can run.  Each processed row emits the
externally visible calls it makes, in order: the content-type probe of
`is_valid_video_url`, the download, the Gemini upload, the row insert.
Oracles report each call's outcome. -/

/-- An externally visible call made while importing a CSV row. -/
inductive NetEvent : Type where
  | headProbe (url : String) : NetEvent
  | download (url : String) : NetEvent
  | geminiUpload (url : String) : NetEvent
  | dbInsert (url : String) : NetEvent
deriving Repr, DecidableEq

/-- A parsed CSV: its column names and its rows (cell lookup by column
name). -/
structure CsvDf : Type where
  columns : List String
  rows : List (String → Option String)

/-- The per-row body of both import loops: probe the URL
(`is_valid_video_url`), and when it is valid download the video, and when
the download returns data upload to Gemini and, if that succeeds, insert
the row. -/
def csvRowEvents (validUrl downloadOk uploadOk : String → Bool)
    (urlCol : String) (row : String → Option String) : List NetEvent :=
  match row urlCol with
  | none => []
  | some url =>
    .headProbe url ::
      (if validUrl url then
        .download url ::
          (if downloadOk url then
            .geminiUpload url ::
              (if uploadOk url then [.dbInsert url] else [])
          else [])
      else [])

/-- Embedding of one CSV import tab of `manage_video_groups`
(`urlCol = "mediaSharePath"` for the Dreemz tab, `"video_url"` for the
generic tab): when the required URL column is absent the whole import is
rejected (`false`) with no call made; otherwise the import is accepted
and, once the process button is pressed, every row is processed in
order. -/
def csv_import (urlCol : String) (df : CsvDf) (buttonPressed : Bool)
    (validUrl downloadOk uploadOk : String → Bool) :
    Bool × List NetEvent :=
  if urlCol ∈ df.columns then
    (true,
     if buttonPressed then
       df.rows.flatMap (csvRowEvents validUrl downloadOk uploadOk urlCol)
     else [])
  else (false, [])

/-- C8: a CSV lacking the required URL column of the tab it is imported
through (`mediaSharePath` for the Dreemz tab, `video_url` for the generic
tab) is rejected as a whole before any network call — no probe, download,
upload or insert happens for any of its rows.  Each tab checks only its
own column, so the two parts take independent CSVs and hypotheses. -/
theorem c8_missing_url_column_rejected
    (dfDreemz dfGeneric : CsvDf) (buttonPressed : Bool)
    (validUrl downloadOk uploadOk : String → Bool)
    (hdreemz : "mediaSharePath" ∉ dfDreemz.columns)
    (hgeneric : "video_url" ∉ dfGeneric.columns) :
    csv_import "mediaSharePath" dfDreemz buttonPressed validUrl downloadOk
        uploadOk = (false, []) ∧
    csv_import "video_url" dfGeneric buttonPressed validUrl downloadOk
        uploadOk = (false, []) := by
  constructor
  · simp [csv_import, hdreemz]
  · simp [csv_import, hgeneric]

/-- Witness for C8 at the wrong-tab inputs: a CSV that carries only
`video_url` is rejected by the Dreemz tab even with rows present, and
one that carries only `mediaSharePath` is rejected by the generic tab. -/
theorem c8_witness :
    ("mediaSharePath" ∉ ["video_url", "title"]) ∧
    ("video_url" ∉ ["mediaSharePath", "title"]) ∧
    (csv_import "mediaSharePath"
        ⟨["video_url", "title"],
         [fun c => if c = "video_url" then some "http://v.mp4" else none]⟩
        true (fun _ => true) (fun _ => true) (fun _ => true) =
      (false, []) ∧
     csv_import "video_url"
        ⟨["mediaSharePath", "title"],
         [fun c => if c = "mediaSharePath" then some "http://w.mp4"
                   else none]⟩
        true (fun _ => true) (fun _ => true) (fun _ => true) =
      (false, [])) :=
  ⟨by decide, by decide,
   c8_missing_url_column_rejected
     ⟨["video_url", "title"],
      [fun c => if c = "video_url" then some "http://v.mp4" else none]⟩
     ⟨["mediaSharePath", "title"],
      [fun c => if c = "mediaSharePath" then some "http://w.mp4"
                else none]⟩
     true (fun _ => true) (fun _ => true) (fun _ => true)
     (by decide) (by decide)⟩

end GVP
